import Mathlib

/-!
Verification of the repository generator (src/main.go).

The Go program inspects a struct declaration and emits a CRUD repository
source file.  Pure functions below embed the generator: Go strings are Lean
`String`s, Go maps built by the tag loop are association lists with
last-write-wins lookup, and the one Go runtime fault reachable from the tag
loop (index out of range on an odd token count) is modelled by `Option`.
-/

namespace RepoGen

/-- Backtick character (code point 96). -/
def btkChar : Char := Char.ofNat 96

/-- Double-quote character (code point 34). -/
def qtChar : Char := Char.ofNat 34

/-- Model of Go `strings.ReplaceAll(s, string(c), "")` for a one-character
pattern: every occurrence of `c` is deleted (main.go:128-129). -/
def goRemoveChar (s : String) (c : Char) : String :=
  ⟨s.data.filter (fun x => !(x == c))⟩

/-- Model of Go `strings.ReplaceAll(s, string(c), string(r))` for a
one-character pattern (main.go:130). -/
def goReplaceChar (s : String) (c r : Char) : String :=
  ⟨s.data.map (fun x => if x == c then r else x)⟩

/-- Model of Go `strings.TrimSuffix(s, suf)`: remove one trailing copy of
`suf` when present (main.go:127). -/
def goTrimSuffix (s suf : String) : String :=
  if suf.data.isSuffixOf s.data then ⟨s.data.take (s.data.length - suf.data.length)⟩ else s

/-- Model of Go `strings.TrimRight(s, cutset)`: remove the maximal trailing
run of characters belonging to `cut`. -/
def trimRightCut (s : String) (cut : List Char) : String :=
  ⟨(s.data.reverse.dropWhile (fun c => cut.contains c)).reverse⟩

/-- Splitting worker for `goSplitSpace`; keeps empty tokens, like Go. -/
def splitChAux : List Char → List Char → List (List Char)
  | [], acc => [acc.reverse]
  | c :: rest, acc =>
    if c == ' ' then acc.reverse :: splitChAux rest [] else splitChAux rest (c :: acc)

/-- Model of Go `strings.Split(s, " ")`: split at every single space,
keeping empty tokens (main.go:131). -/
def goSplitSpace (s : String) : List String :=
  (splitChAux s.data []).map fun cs => ⟨cs⟩

/-- Decimal digit character, `48 + n` for `n < 10`. -/
def digitChar (n : Nat) : Char := Char.ofNat (48 + n)

/-- Fuel-driven decimal digit list (most significant first). -/
def natDigitsAux : Nat → Nat → List Char
  | 0, _ => []
  | fuel + 1, n =>
    if n < 10 then [digitChar n] else natDigitsAux fuel (n / 10) ++ [digitChar (n % 10)]

/-- Decimal rendering of a natural number; model of Go `strconv.Itoa` and of
`fmt` `%v` on the non-negative loop index (main.go:203, 236, 270, 299-301). -/
def natToStr (n : Nat) : String := ⟨natDigitsAux (n + 1) n⟩

/-- Go map lookup with the zero-value default: the last binding of the key
wins (Go map writes overwrite), a missing key yields `""`. -/
def mapGet (m : List (String × String)) (k : String) : String :=
  match m.reverse.find? (fun p => p.1 == k) with
  | some p => p.2
  | none => ""

/-- Separator-joined list, separator between consecutive elements only. -/
def joinSep (sep : String) : List String → String
  | [] => ""
  | [x] => x
  | x :: y :: rest => x ++ sep ++ joinSep sep (y :: rest)

/-- Separator-joined list with a trailing separator after every element —
the exact shape the generator loops accumulate before trimming. -/
def joinTrail (sep : String) : List String → String
  | [] => ""
  | x :: rest => x ++ sep ++ joinTrail sep rest

/-- `true` when the string is nonempty and its final character is outside
the cutset, so `trimRightCut` with that cutset cannot eat into it. -/
def lastSafe (cut : List Char) (x : String) : Bool :=
  match x.data.getLast? with
  | none => false
  | some c => !(cut.contains c)

/-- Cutset of Go `strings.TrimRight(s, ", ")`. -/
def commaCut : List Char := [',', ' ']

/-- Cutset of Go `strings.TrimRight(s, "AND ")`. -/
def andCut : List Char := ['A', 'N', 'D', ' ']

/-- Field of a struct (main.go:26-31).  Go's field `Type` is a reserved word
in Lean and is embedded as `fieldType`. -/
structure Field where
  Name : String
  fieldType : String
  tags : List (String × String)
deriving DecidableEq

/-- Structure extracted from a type declaration (main.go:33-39). -/
structure Structure where
  packageName : String
  tableName : String
  name : String
  fields : List Field
deriving DecidableEq

/-- Method descriptor produced by a synthesizer (main.go:16-23). -/
structure Method where
  comment : String
  name : String
  iParams : String
  oParams : String
  body : String
deriving DecidableEq

/-- Raw field as delivered by the external parser: identifier, rendered type
name, and the optional tag literal (`ast.Field` restricted to what
`getStructure` reads). -/
structure RawField where
  name : String
  typeName : String
  tag : Option String
deriving DecidableEq

/-- Pairwise consumption loop of `getStructure` (main.go:134-136).  Go reads
`tagsArr[j+1]` with no bounds protection, so an odd token count is an
index-out-of-range runtime fault, modelled as `none`. -/
def pairUp : List String → Option (List (String × String))
  | [] => some []
  | [_] => none
  | k :: v :: rest => (pairUp rest).map (fun l => (k, v) :: l)

/-- Token list `getStructure` computes from a present tag literal
(main.go:126-131): trim one trailing space suffix, delete every backtick,
delete every double quote, turn each colon into a space, split on single
spaces. -/
def goTokens (a : String) : List String :=
  goSplitSpace (goReplaceChar (goRemoveChar (goRemoveChar (goTrimSuffix a " ") btkChar) qtChar) ':' ' ')

/-- Tag-map extraction for one field (main.go:123-136).  A `none` tag
(absent tag literal) yields the empty mapping. -/
def parseTags : Option String → Option (List (String × String))
  | none => some []
  | some a => pairUp (goTokens a)

/-- Field-list construction of `getStructure` (main.go:122-151), with the
tag fault propagated. -/
def buildFields : List RawField → Option (List Field)
  | [] => some []
  | rf :: rest =>
    match parseTags rf.tag, buildFields rest with
    | some tm, some fs => some ({ Name := rf.name, fieldType := rf.typeName, tags := tm } :: fs)
    | _, _ => none

/-- `getStructure` (main.go:120-159): the table name is the fixed literal
`testTable`. -/
def getStructure (packageName structName : String) (raw : List RawField) : Option Structure :=
  (buildFields raw).map fun fs =>
    { packageName := packageName, tableName := "testTable", name := structName, fields := fs }

/-- The primary test of the synthesizers: `field.tags["primary"] == "true"`
(main.go:233, 267, 298). -/
def isPrimary (f : Field) : Bool := mapGet f.tags "primary" == "true"

/-- The column lookup `field.tags["column"]` (main.go:204, 236, 239, 270,
299, 301). -/
def colOf (f : Field) : String := mapGet f.tags "column"

/-- Fields whose `primary` tag value is `"true"`, in declaration order. -/
def primaryFields (s : Structure) : List Field := s.fields.filter isPrimary

/-- First line of the generated exec body (main.go:163). -/
def execPrologue (sqlRequest insertingValueString : String) : String :=
  "\tctg, err := p.db.Exec(ctx, " ++ sqlRequest ++ ", " ++ insertingValueString ++ ")\n"

/-- Driver-error branch of the generated exec body (main.go:164-166): wraps
the underlying error, with the method name as context. -/
def errorWrapBranch (methodName : String) : String :=
  "\tif err != nil \x7b\n" ++ "\t\treturn fmt.Errorf(\"" ++ methodName ++ " error: %w \", err)\n" ++ "\t\x7d\n"

/-- Zero-rows-affected branch of the generated exec body (main.go:168-170). -/
def noRowsBranch (methodName : String) : String :=
  "\tif ctg.RowsAffected() == 0 \x7b\n" ++ "\t\treturn fmt.Errorf(\"" ++ methodName ++ " error: no rows affected\")\n" ++ "\t\x7d\n\n"

/-- `generateExec` (main.go:162-175), the exec-style body shared by Create,
Update and Delete.  In the emitted error line, Go substitutes `%s` with the
method name and `%v` with the literal `%w`. -/
def generateExec (methodName sqlRequest insertingValueString : String) : String :=
  "\tctg, err := p.db.Exec(ctx, " ++ sqlRequest ++ ", " ++ insertingValueString ++ ")\n"
  ++ "\tif err != nil \x7b\n"
  ++ "\t\treturn fmt.Errorf(\"" ++ methodName ++ " error: %w \", err)\n"
  ++ "\t\x7d\n"
  ++ "\tif ctg.RowsAffected() == 0 \x7b\n"
  ++ "\t\treturn fmt.Errorf(\"" ++ methodName ++ " error: no rows affected\")\n"
  ++ "\t\x7d\n\n"
  ++ "\treturn nil"

/-- `generateQueryRow` (main.go:178-187), the query body of Select. -/
def generateQueryRow (methodName sqlRequest whereValue scanString : String) : String :=
  "\terr = p.db.QueryRow(ctx, " ++ sqlRequest ++ ", " ++ whereValue ++ ").Scan(" ++ scanString ++ ")\n"
  ++ "\tif err != nil \x7b\n"
  ++ "\t\treturn nil, fmt.Errorf(\"" ++ methodName ++ " error: %w \", err)\n"
  ++ "\t\x7d\n\n"
  ++ "\treturn element, nil"

/-- Field loop of `generateCreate` (main.go:201-207), accumulating
placeholders, column names and value expressions, each with a trailing
`", "`; `index` advances once per field. -/
def createLoop : List Field → Nat → String × String × String
  | [], _ => ("", "", "")
  | f :: rest, index =>
    let r := createLoop rest (index + 1)
    ("$" ++ natToStr index ++ ", " ++ r.1,
     colOf f ++ ", " ++ r.2.1,
     "data." ++ f.Name ++ ", " ++ r.2.2)

/-- `valuesString` of `generateCreate` after trimming (main.go:208). -/
def createValuesStr (s : Structure) : String := trimRightCut (createLoop s.fields 1).1 commaCut

/-- `paramsString` of `generateCreate` after trimming (main.go:209). -/
def createParamsStr (s : Structure) : String := trimRightCut (createLoop s.fields 1).2.1 commaCut

/-- `insertingValueString` of `generateCreate` after trimming (main.go:210). -/
def createInsertStr (s : Structure) : String := trimRightCut (createLoop s.fields 1).2.2 commaCut

/-- The Create SQL literal (main.go:212), double quotes included. -/
def createSql (s : Structure) : String :=
  "\"INSERT INTO " ++ s.tableName ++ " (" ++ createParamsStr s ++ ") VALUES (" ++ createValuesStr s ++ ")\""

/-- `generateCreate` (main.go:190-216). -/
def generateCreate (s : Structure) : Method :=
  { name := s.name ++ "Create"
    comment := "// " ++ s.name ++ "Create add new " ++ s.name ++ " to database"
    iParams := "ctx context.Context, data *" ++ s.packageName ++ "." ++ s.name
    oParams := "err error"
    body := generateExec (s.name ++ "Create") (createSql s) (createInsertStr s) }

/-- Output bundle of the Select field loop. -/
structure SelLoopOut where
  ip : String
  wv : String
  ws : String
  ps : String
  sc : String
deriving DecidableEq

/-- Field loop of `generateSelect` (main.go:231-241): `index` advances only
on primary fields; every field contributes to the column and scan lists. -/
def selectLoop : List Field → Nat → SelLoopOut
  | [], _ => ⟨"", "", "", "", ""⟩
  | f :: rest, index =>
    if isPrimary f then
      let r := selectLoop rest (index + 1)
      ⟨f.Name ++ " " ++ f.fieldType ++ ", " ++ r.ip,
       f.Name ++ ", " ++ r.wv,
       colOf f ++ " = $" ++ natToStr index ++ " AND " ++ r.ws,
       colOf f ++ ", " ++ r.ps,
       "element." ++ f.Name ++ ", " ++ r.sc⟩
    else
      let r := selectLoop rest index
      ⟨r.ip, r.wv, r.ws, colOf f ++ ", " ++ r.ps, "element." ++ f.Name ++ ", " ++ r.sc⟩

/-- Select input parameters after trimming (main.go:224, 242). -/
def selectIParams (s : Structure) : String :=
  trimRightCut ("ctx context.Context, " ++ (selectLoop s.fields 1).ip) commaCut

/-- Select WHERE clause after trimming (main.go:243). -/
def selectWhereStr (s : Structure) : String := trimRightCut (selectLoop s.fields 1).ws andCut

/-- Select WHERE argument list after trimming (main.go:244). -/
def selectWhereValue (s : Structure) : String := trimRightCut (selectLoop s.fields 1).wv commaCut

/-- Select column list after `TrimSuffix` (main.go:245). -/
def selectParamsStr (s : Structure) : String := goTrimSuffix (selectLoop s.fields 1).ps ", "

/-- Select scan-target list after `TrimSuffix` (main.go:246). -/
def selectScanStr (s : Structure) : String := goTrimSuffix (selectLoop s.fields 1).sc ", "

/-- The Select SQL literal (main.go:248). -/
def selectSql (s : Structure) : String :=
  "\"SELECT (" ++ selectParamsStr s ++ ") FROM " ++ s.tableName ++ " WHERE (" ++ selectWhereStr s ++ ")\""

/-- `generateSelect` (main.go:219-252). -/
def generateSelect (s : Structure) : Method :=
  { name := s.name ++ "Select"
    comment := "// " ++ s.name ++ "Select get " ++ s.name ++ " from database by pk"
    iParams := selectIParams s
    oParams := "element *" ++ s.packageName ++ "." ++ s.name ++ ", err error"
    body := generateQueryRow (s.name ++ "Select") (selectSql s) (selectWhereValue s) (selectScanStr s) }

/-- Field loop of `generateDelete` (main.go:265-273): identical WHERE
construction to Select, non-primary fields contribute nothing. -/
def deleteLoop : List Field → Nat → String × String × String
  | [], _ => ("", "", "")
  | f :: rest, index =>
    if isPrimary f then
      let r := deleteLoop rest (index + 1)
      (f.Name ++ " " ++ f.fieldType ++ ", " ++ r.1,
       f.Name ++ ", " ++ r.2.1,
       colOf f ++ " = $" ++ natToStr index ++ " AND " ++ r.2.2)
    else
      deleteLoop rest index

/-- Delete input parameters after trimming (main.go:260, 274). -/
def deleteIParams (s : Structure) : String :=
  trimRightCut ("ctx context.Context, " ++ (deleteLoop s.fields 1).1) commaCut

/-- Delete WHERE clause after trimming (main.go:275). -/
def deleteWhereStr (s : Structure) : String := trimRightCut (deleteLoop s.fields 1).2.2 andCut

/-- Delete WHERE argument list after trimming (main.go:276). -/
def deleteWhereValue (s : Structure) : String := trimRightCut (deleteLoop s.fields 1).2.1 commaCut

/-- The Delete SQL literal (main.go:278). -/
def deleteSql (s : Structure) : String :=
  "\"DELETE FROM " ++ s.tableName ++ " WHERE (" ++ deleteWhereStr s ++ ")\""

/-- `generateDelete` (main.go:255-282). -/
def generateDelete (s : Structure) : Method :=
  { name := s.name ++ "Delete"
    comment := "// " ++ s.name ++ "Delete delete " ++ s.name ++ " from database by pk"
    iParams := deleteIParams s
    oParams := "err error"
    body := generateExec (s.name ++ "Delete") (deleteSql s) (deleteWhereValue s) }

/-- Field loop of `generateUpdate` (main.go:296-305): one shared `index`
advanced once per field whatever its role; primary fields feed the WHERE
clause, the others the SET clause, and every field feeds the value list. -/
def updateLoop : List Field → Nat → String × String × String
  | [], _ => ("", "", "")
  | f :: rest, index =>
    let r := updateLoop rest (index + 1)
    if isPrimary f then
      (colOf f ++ " = $" ++ natToStr index ++ " AND " ++ r.1,
       r.2.1,
       "data." ++ f.Name ++ ", " ++ r.2.2)
    else
      (r.1,
       colOf f ++ " = $" ++ natToStr index ++ ", " ++ r.2.1,
       "data." ++ f.Name ++ ", " ++ r.2.2)

/-- Update WHERE clause after trimming (main.go:306). -/
def updateWhereStr (s : Structure) : String := trimRightCut (updateLoop s.fields 1).1 andCut

/-- Update SET clause after trimming (main.go:307). -/
def updateSetStr (s : Structure) : String := trimRightCut (updateLoop s.fields 1).2.1 commaCut

/-- Update exec value list after trimming (main.go:308). -/
def updateValuesStr (s : Structure) : String := trimRightCut (updateLoop s.fields 1).2.2 commaCut

/-- The Update SQL literal (main.go:310). -/
def updateSql (s : Structure) : String :=
  "\"UPDATE " ++ s.tableName ++ " SET (" ++ updateSetStr s ++ ") WHERE (" ++ updateWhereStr s ++ ")\""

/-- `generateUpdate` (main.go:285-314). -/
def generateUpdate (s : Structure) : Method :=
  { name := s.name ++ "Update"
    comment := "// " ++ s.name ++ "Update update " ++ s.name ++ " in database by pk"
    iParams := "ctx context.Context, data *" ++ s.packageName ++ "." ++ s.name
    oParams := "err error"
    body := generateExec (s.name ++ "Update") (updateSql s) (updateValuesStr s) }

/-- The fixed header constant (main.go:342-347). -/
def headerStr : String :=
  "// code generated automatically\n// can be edited by hand if needed\n\n// Package repository contains the repository layer of the application.\n// generate this file by running: go generate repository_generator -path \x27path to file holding struct\x27 -entity \x27name of struct\x27\npackage repository"

/-- Generator state (main.go:42-51); the output buffer is the string
`GenerateFile` returns.  Go's field `structure` is a reserved word in Lean
and is embedded as `struc`. -/
structure Generator where
  filePath : String
  header : String
  imports : List String
  struc : Structure
  methods : List Method
deriving DecidableEq

/-- `AddHeader` (main.go:350-352). -/
def AddHeader (g : Generator) (h : String) : Generator := { g with header := h }

/-- `AddImport` (main.go:355-357): appends, duplicates kept. -/
def AddImport (g : Generator) (p : String) : Generator := { g with imports := g.imports ++ [p] }

/-- `AddMethod` (main.go:360-362). -/
def AddMethod (g : Generator) (m : Method) : Generator := { g with methods := g.methods ++ [m] }

/-- `GenerateFile` (main.go:365-406): the byte content written to the
output file — header, imports, `<Type>Manager` interface, then each method
as comment plus receiver function. -/
def GenerateFile (g : Generator) : String :=
  g.header ++ "\n" ++ "\n"
  ++ "import (\n"
  ++ String.join (g.imports.map fun im => "\t\"" ++ im ++ "\"\n")
  ++ ")\n" ++ "\n"
  ++ "// " ++ g.struc.name ++ "Manager interface to interact with database\n"
  ++ "type " ++ g.struc.name ++ "Manager interface \x7b\n"
  ++ String.join (g.methods.map fun m => "\t" ++ m.name ++ "(" ++ m.iParams ++ ") (" ++ m.oParams ++ ")\n")
  ++ "\x7d\n" ++ "\n"
  ++ String.join (g.methods.map fun m =>
       m.comment ++ "\n"
       ++ "func (p *PostgresRepository) " ++ m.name ++ "(" ++ m.iParams ++ ") (" ++ m.oParams ++ ")\x7b\n"
       ++ m.body ++ "\n"
       ++ "\x7d\n\n")

/-- `Generate` (main.go:316-340): header, the two imports, then the four
methods in Create, Select, Update, Delete order, rendered to file content. -/
def Generate (s : Structure) : String :=
  GenerateFile
    (AddMethod
      (AddMethod
        (AddMethod
          (AddMethod
            (AddImport
              (AddImport
                (AddHeader
                  { filePath := "repository/" ++ s.name ++ "_repository.go"
                    header := "", imports := [], struc := s, methods := [] }
                  headerStr)
                "context")
              "fmt")
            (generateCreate s))
          (generateSelect s))
        (generateUpdate s))
      (generateDelete s))

/-- Tag literal of the scenario field `ID` (claims C1, C5): two pairs,
`column` to `id` and `primary` to `true`, in Go raw-string form. -/
def userTagId : String := "\x60column:\"id\" primary:\"true\"\x60"

/-- Tag literal of the scenario field `Name`: one pair, `column` to `name`. -/
def userTagName : String := "\x60column:\"name\"\x60"

/-- Raw input of the C1 scenario structure `User`. -/
def userRaw : List RawField :=
  [⟨"ID", "int64", some userTagId⟩, ⟨"Name", "string", some userTagName⟩]

/-- The C1 scenario structure as `getStructure` produces it. -/
def userStructure : Structure :=
  { packageName := "model", tableName := "testTable", name := "User"
    fields := [⟨"ID", "int64", [("column", "id"), ("primary", "true")]⟩,
               ⟨"Name", "string", [("column", "name")]⟩] }

/-- A structure with no primary-tagged field (claim C10). -/
def noteStructure : Structure :=
  { packageName := "model", tableName := "testTable", name := "Note"
    fields := [⟨"Name", "string", [("column", "name")]⟩] }

/-- Whitespace test used by the spec-worded normalizer. -/
def isWsChar (c : Char) : Bool := c == ' ' || c == '\t' || c == '\n' || c == '\r'

/-- Whitespace splitting that collapses runs and drops empty tokens — the
reading of "splits on whitespace" under which the spec's token-count talk
is coherent. -/
def wsSplitAux : List Char → List Char → List (List Char)
  | [], acc => if acc.isEmpty then [] else [acc.reverse]
  | c :: rest, acc =>
    if isWsChar c then
      (if acc.isEmpty then wsSplitAux rest [] else acc.reverse :: wsSplitAux rest [])
    else wsSplitAux rest (c :: acc)

/-- Drop one leading backtick or double quote. -/
def dropPunct : List Char → List Char
  | [] => []
  | c :: rest => if c == btkChar || c == qtChar then rest else c :: rest

/-- Strip the surrounding backtick/quote punctuation: one from the front,
one from the back. -/
def stripSurroundChars (cs : List Char) : List Char :=
  (dropPunct ((dropPunct cs).reverse)).reverse

/-- Tag normalization exactly as the specification words it (spec section
4.1, claim C6): strip the surrounding backtick/quote punctuation, replace
the colon separator and the double-quote delimiters each with a single
space, split the result on whitespace, and consume the tokens pairwise. -/
def specTagNormalize : Option String → Option (List (String × String))
  | none => some []
  | some a =>
    pairUp ((wsSplitAux ((stripSurroundChars a.data).map
      (fun c => if c == ':' || c == qtChar then ' ' else c)) []).map fun cs => (⟨cs⟩ : String))

/-- The amended normalizer description (claim C6 as corrected): trim one
trailing space suffix, delete — not blank out — every backtick and double
quote, turn each colon into a single space, split on single space
characters keeping empty tokens, and consume the tokens pairwise, faulting
on an odd token count. -/
def amendedTagNormalize : Option String → Option (List (String × String))
  | none => some []
  | some a =>
    pairUp ((splitChAux (((goTrimSuffix a " ").data.filter
      (fun c => !(c == btkChar || c == qtChar))).map
      (fun c => if c == ':' then ' ' else c)) []).map fun cs => (⟨cs⟩ : String))

/-- Tag literal on which the code and the spec wording visibly diverge
(claim C6): pairs not separated by a space. -/
def c6Tag : String := "\x60k1:\"v1\"k2:\"v2\" k3:\"v3\"k4:\"v4\"\x60"

/-- Tag literal whose value holds one embedded space (claim C7): three
tokens after transformation, an odd count. -/
def c7Tag : String := "\x60a:\"b c\"\x60"

theorem sData_append (s t : String) : (s ++ t).data = s.data ++ t.data := by
  cases s; cases t; rfl

theorem sExt {s t : String} (h : s.data = t.data) : s = t := by
  cases s; cases t; exact congrArg String.mk h

@[simp] theorem sData_mk (l : List Char) : (⟨l⟩ : String).data = l := rfl

@[simp] theorem sAppend_assoc (a b c : String) : a ++ b ++ c = a ++ (b ++ c) := by
  apply sExt; simp [sData_append]

@[simp] theorem sEmpty_append (s : String) : "" ++ s = s := by
  cases s; rfl

@[simp] theorem sAppend_empty (s : String) : s ++ "" = s := by
  apply sExt; simp [sData_append]

theorem dropWhile_append_all {p : Char → Bool} {A B : List Char} (h : ∀ a ∈ A, p a = true) :
    (A ++ B).dropWhile p = B.dropWhile p := by
  induction A with
  | nil => rfl
  | cons a A ih =>
    rw [List.cons_append, List.dropWhile_cons, if_pos (h a (by simp))]
    exact ih fun x hx => h x (by simp [hx])

theorem lastSafe_spec {cut : List Char} {x : String} (h : lastSafe cut x = true) :
    ∃ c, x.data.getLast? = some c ∧ cut.contains c = false := by
  unfold lastSafe at h
  split at h
  · exact absurd h (by simp)
  · next c heq => exact ⟨c, heq, by simpa using h⟩

theorem lastSafe_data_ne {cut : List Char} {x : String} (h : lastSafe cut x = true) :
    x.data ≠ [] := by
  obtain ⟨c, hc, -⟩ := lastSafe_spec h
  intro hnil
  rw [hnil] at hc
  simp at hc

theorem trimRightCut_append_sep (y sep : String) (cut : List Char)
    (hsep : ∀ c ∈ sep.data, cut.contains c = true)
    (hy : lastSafe cut y = true) :
    trimRightCut (y ++ sep) cut = y := by
  obtain ⟨c, hc, hcf⟩ := lastSafe_spec hy
  apply sExt
  show ((y ++ sep).data.reverse.dropWhile (fun c => cut.contains c)).reverse = y.data
  rw [sData_append, List.reverse_append,
    dropWhile_append_all (fun a ha => hsep a (by simpa using ha))]
  rcases hrev : y.data.reverse with _ | ⟨c', t⟩
  · exact absurd (by simpa [hrev] using List.head?_reverse y.data) (by simp [hc])
  · have hcc : c' = c := by
      have := List.head?_reverse y.data
      rw [hrev, hc] at this
      simpa using this
    rw [List.dropWhile_cons, if_neg (by rw [hcc, hcf]; exact Bool.false_ne_true), ← hrev,
      List.reverse_reverse]

theorem joinSep_cons_of_ne (sep a : String) (l : List String) (h : l ≠ []) :
    joinSep sep (a :: l) = a ++ sep ++ joinSep sep l := by
  cases l with
  | nil => exact absurd rfl h
  | cons b r => rfl

theorem joinTrail_eq (sep : String) {l : List String} (h : l ≠ []) :
    joinTrail sep l = joinSep sep l ++ sep := by
  induction l with
  | nil => exact absurd rfl h
  | cons a r ih =>
    cases r with
    | nil => simp [joinTrail, joinSep]
    | cons b r' =>
      rw [joinTrail, ih (by simp), joinSep_cons_of_ne sep a (b :: r') (by simp)]
      simp

theorem joinSep_concat (sep : String) (l : List String) (x : String) :
    joinSep sep (l ++ [x]) = joinTrail sep l ++ x := by
  induction l with
  | nil => simp [joinSep, joinTrail]
  | cons a r ih =>
    rw [List.cons_append, joinSep_cons_of_ne sep a (r ++ [x]) (by simp), ih, joinTrail]
    simp

theorem lastSafe_append_right (cut : List Char) (s t : String) (ht : t.data ≠ []) :
    lastSafe cut (s ++ t) = lastSafe cut t := by
  unfold lastSafe
  rw [sData_append, List.getLast?_append]
  rcases h : t.data.getLast? with _ | c
  · exact absurd (by simpa using h) ht
  · rfl

theorem lastSafe_joinSep_concat (cut : List Char) (sep : String) (l : List String) (x : String)
    (hx : lastSafe cut x = true) : lastSafe cut (joinSep sep (l ++ [x])) = true := by
  rw [joinSep_concat, lastSafe_append_right _ _ _ (lastSafe_data_ne hx)]
  exact hx

theorem trim_joinTrail (sep : String) (cut : List Char) (l : List String)
    (hsep : ∀ c ∈ sep.data, cut.contains c = true)
    (hl : ∀ x ∈ l, lastSafe cut x = true) :
    trimRightCut (joinTrail sep l) cut = joinSep sep l := by
  rcases List.eq_nil_or_concat l with rfl | ⟨L, x, rfl⟩
  · rfl
  · rw [List.concat_eq_append] at *
    rw [joinTrail_eq sep (by simp)]
    exact trimRightCut_append_sep _ _ _ hsep
      (lastSafe_joinSep_concat _ _ _ _ (hl x (by simp)))

theorem isPrefixOf_append_self (l r : List Char) : l.isPrefixOf (l ++ r) = true := by
  induction l with
  | nil => simp [List.isPrefixOf]
  | cons a t ih => simp [List.isPrefixOf, ih]

theorem goTrimSuffix_append (a sep : String) : goTrimSuffix (a ++ sep) sep = a := by
  have hsuf : sep.data.isSuffixOf (a ++ sep).data = true := by
    rw [sData_append]
    unfold List.isSuffixOf
    rw [List.reverse_append]
    exact isPrefixOf_append_self _ _
  unfold goTrimSuffix
  rw [if_pos hsuf]
  apply sExt
  rw [sData_mk, sData_append, List.length_append, Nat.add_sub_cancel, List.take_left]

theorem goTrimSuffix_joinTrail (sep : String) (l : List String) (hsep : sep.data ≠ []) :
    goTrimSuffix (joinTrail sep l) sep = joinSep sep l := by
  rcases List.eq_nil_or_concat l with rfl | ⟨L, x, rfl⟩
  · have hne : sep.data.isSuffixOf (joinTrail sep []).data = false := by
      rcases hr : sep.data.reverse with _ | ⟨c, t⟩
      · exact absurd (by simpa using hr) hsep
      · unfold List.isSuffixOf
        rw [hr]
        rfl
    unfold goTrimSuffix
    rw [if_neg (by simp [hne])]
    rfl
  · rw [List.concat_eq_append, joinTrail_eq sep (by simp), goTrimSuffix_append]

theorem natDigitsAux_getLast (fuel n : Nat) :
    ∃ d, d < 10 ∧ (natDigitsAux (fuel + 1) n).getLast? = some (digitChar d) := by
  rw [natDigitsAux]
  by_cases h : n < 10
  · exact ⟨n, h, by rw [if_pos h]; rfl⟩
  · exact ⟨n % 10, Nat.mod_lt _ (by omega), by rw [if_neg h, List.getLast?_concat]⟩

theorem natToStr_data_ne (i : Nat) : (natToStr i).data ≠ [] := by
  obtain ⟨d, -, hlast⟩ := natDigitsAux_getLast i i
  intro h
  unfold natToStr at h
  rw [sData_mk] at h
  rw [h] at hlast
  simp at hlast

theorem lastSafe_append_natToStr (cut : List Char)
    (hcut : ∀ d, d < 10 → cut.contains (digitChar d) = false) (a : String) (i : Nat) :
    lastSafe cut (a ++ natToStr i) = true := by
  obtain ⟨d, hd, hlast⟩ := natDigitsAux_getLast i i
  rw [lastSafe_append_right _ _ _ (natToStr_data_ne i)]
  unfold lastSafe natToStr
  rw [sData_mk, hlast]
  show (!(cut.contains (digitChar d))) = true
  rw [hcut d hd]
  rfl

theorem commaCut_digit (d : Nat) (hd : d < 10) : commaCut.contains (digitChar d) = false := by
  interval_cases d <;> decide

theorem andCut_digit (d : Nat) (hd : d < 10) : andCut.contains (digitChar d) = false := by
  interval_cases d <;> decide

theorem map_snd_zip_eq {α β : Type} : ∀ (A : List α) (B : List β), A.length = B.length →
    (A.zip B).map Prod.snd = B
  | [], [], _ => rfl
  | [], _ :: _, h => by simp at h
  | _ :: _, [], h => by simp at h
  | a :: A, b :: B, h => by
    rw [List.zip_cons_cons, List.map_cons, map_snd_zip_eq A B (by simpa using h)]

theorem createLoop_eq : ∀ (fs : List Field) (i : Nat),
    createLoop fs i = (joinTrail ", " ((List.range' i fs.length).map fun k => "$" ++ natToStr k),
                       joinTrail ", " (fs.map colOf),
                       joinTrail ", " (fs.map fun f => "data." ++ f.Name))
  | [], _ => rfl
  | f :: rest, i => by
    simp [createLoop, createLoop_eq rest (i + 1), List.range'_succ, joinTrail]

theorem selectLoop_eq : ∀ (fs : List Field) (i : Nat),
    selectLoop fs i
      = ⟨joinTrail ", " ((fs.filter isPrimary).map fun f => f.Name ++ " " ++ f.fieldType),
         joinTrail ", " ((fs.filter isPrimary).map fun f => f.Name),
         joinTrail " AND " (((fs.filter isPrimary).zip
           (List.range' i (fs.filter isPrimary).length)).map
           fun p => colOf p.1 ++ " = $" ++ natToStr p.2),
         joinTrail ", " (fs.map colOf),
         joinTrail ", " (fs.map fun f => "element." ++ f.Name)⟩
  | [], _ => rfl
  | f :: rest, i => by
    cases hp : isPrimary f with
    | true =>
      simp [selectLoop, hp, selectLoop_eq rest (i + 1), List.filter_cons, List.range'_succ,
        joinTrail]
    | false =>
      simp [selectLoop, hp, selectLoop_eq rest i, List.filter_cons, joinTrail]

theorem deleteLoop_eq : ∀ (fs : List Field) (i : Nat),
    deleteLoop fs i
      = (joinTrail ", " ((fs.filter isPrimary).map fun f => f.Name ++ " " ++ f.fieldType),
         joinTrail ", " ((fs.filter isPrimary).map fun f => f.Name),
         joinTrail " AND " (((fs.filter isPrimary).zip
           (List.range' i (fs.filter isPrimary).length)).map
           fun p => colOf p.1 ++ " = $" ++ natToStr p.2))
  | [], _ => rfl
  | f :: rest, i => by
    cases hp : isPrimary f with
    | true =>
      simp [deleteLoop, hp, deleteLoop_eq rest (i + 1), List.filter_cons, List.range'_succ,
        joinTrail]
    | false =>
      simp [deleteLoop, hp, deleteLoop_eq rest i, List.filter_cons]

theorem updateLoop_eq : ∀ (fs : List Field) (i : Nat),
    updateLoop fs i
      = (joinTrail " AND " (((fs.zip (List.range' i fs.length)).filter
           (fun p => isPrimary p.1)).map fun p => colOf p.1 ++ " = $" ++ natToStr p.2),
         joinTrail ", " (((fs.zip (List.range' i fs.length)).filter
           (fun p => !isPrimary p.1)).map fun p => colOf p.1 ++ " = $" ++ natToStr p.2),
         joinTrail ", " (fs.map fun f => "data." ++ f.Name))
  | [], _ => rfl
  | f :: rest, i => by
    cases hp : isPrimary f with
    | true =>
      simp [updateLoop, hp, updateLoop_eq rest (i + 1), List.filter_cons, List.range'_succ,
        joinTrail]
    | false =>
      simp [updateLoop, hp, updateLoop_eq rest (i + 1), List.filter_cons, List.range'_succ,
        joinTrail]

theorem pairUp_isSome : ∀ xs : List String, (pairUp xs).isSome = true ↔ xs.length % 2 = 0
  | [] => by simp [pairUp]
  | [_] => by simp [pairUp]
  | _ :: _ :: rest => by
    have ih := pairUp_isSome rest
    cases h : pairUp rest <;> simp [pairUp, h] at ih ⊢ <;> omega

theorem removeChar_merge (l : List Char) :
    (l.filter (fun x => !(x == btkChar))).filter (fun x => !(x == qtChar))
      = l.filter (fun c => !(c == btkChar || c == qtChar)) := by
  rw [List.filter_filter]
  exact List.filter_congr fun a _ => by
    cases hb : a == btkChar <;> cases hq : a == qtChar <;> simp [hb, hq]

theorem trim_ctx_list (l : List String) (hl : ∀ x ∈ l, lastSafe commaCut x = true) :
    trimRightCut ("ctx context.Context, " ++ joinTrail ", " l) commaCut
      = if l = [] then "ctx context.Context" else "ctx context.Context, " ++ joinSep ", " l := by
  rcases List.eq_nil_or_concat l with rfl | ⟨L, x, rfl⟩
  · rw [if_pos rfl]
    show trimRightCut ("ctx context.Context, " ++ "") commaCut = _
    rw [sAppend_empty]
    decide
  · rw [List.concat_eq_append, if_neg (by simp)]
    have hx := hl x (by simp)
    have hJ : lastSafe commaCut (joinSep ", " (L ++ [x])) = true :=
      lastSafe_joinSep_concat _ _ _ _ hx
    rw [joinTrail_eq _ (by simp), ← sAppend_assoc]
    exact trimRightCut_append_sep _ _ _ (by decide)
      (by rw [lastSafe_append_right _ _ _ (lastSafe_data_ne hJ)]; exact hJ)

/-- Claim C6 (corrected): the normalizer trims one trailing space suffix,
deletes every backtick and double quote outright (it does not replace the
quote delimiters with a space), replaces each colon with a single space,
splits on single space characters keeping empty tokens, and consumes the
tokens pairwise, faulting when the token count is odd; an absent tag string
yields the empty mapping. -/
theorem c6_normalizer_algorithm (t : Option String) : parseTags t = amendedTagNormalize t := by
  cases t with
  | none => rfl
  | some a =>
    simp only [parseTags, amendedTagNormalize, goTokens, goSplitSpace, goReplaceChar,
      goRemoveChar, sData_mk]
    rw [removeChar_merge]

/-- Counterexample to claim C6 as stated: on the tag literal `c6Tag` the
code's normalization and the spec-worded algorithm (quote delimiters
replaced by a space, whitespace split) produce different tag mappings. -/
theorem c6_wording_divergence :
    parseTags (some c6Tag) = some [("k1", "v1k2"), ("v2", "k3"), ("v3k4", "v4")]
    ∧ specTagNormalize (some c6Tag) = some [("k1", "v1"), ("k2", "v2"), ("k3", "v3"), ("k4", "v4")]
    ∧ parseTags (some c6Tag) ≠ specTagNormalize (some c6Tag) :=
  ⟨by decide, by decide, by decide⟩

/-- Claim C7 (corrected): the pairwise tag loop completes (without the
index-out-of-range fault, modelled by `none`) exactly when the transformed
token sequence has even length; a desynchronized mapping is still produced
silently in the even case, but an odd count — for example a single
embedded space in a value — faults instead of completing. -/
theorem c7_token_parity (a : String) :
    (parseTags (some a)).isSome = true ↔ (goTokens a).length % 2 = 0 :=
  pairUp_isSome (goTokens a)

/-- Counterexample to claim C7 as stated: the tag literal with one embedded
space in its value yields three tokens, and the normalizer faults (Go
index out of range, modelled by `none`) instead of completing silently. -/
theorem c7_embedded_space_fault : parseTags (some c7Tag) = none := by decide

/-- Claim C8: every generated Create, Update and Delete body is the exec
prologue, then the driver-error branch wrapping the error with the method's
own name, then the distinct zero-rows-affected check whose message contains
the words `no rows affected`, then `return nil`, in that order. -/
theorem c8_exec_error_contract (m q v : String) (s : Structure) :
    generateExec m q v
      = execPrologue q v ++ errorWrapBranch m ++ noRowsBranch m ++ "\treturn nil"
    ∧ (generateCreate s).body = generateExec (s.name ++ "Create") (createSql s) (createInsertStr s)
    ∧ (generateUpdate s).body = generateExec (s.name ++ "Update") (updateSql s) (updateValuesStr s)
    ∧ (generateDelete s).body = generateExec (s.name ++ "Delete") (deleteSql s) (deleteWhereValue s)
    ∧ noRowsBranch m = "\tif ctg.RowsAffected() == 0 \x7b\n" ++ "\t\treturn fmt.Errorf(\"" ++ m
        ++ (" error: " ++ "no rows affected" ++ "\")\n") ++ "\t\x7d\n\n" := by
  refine ⟨?_, rfl, rfl, rfl, ?_⟩
  · simp only [generateExec, execPrologue, errorWrapBranch, noRowsBranch, sAppend_assoc]
  · rw [(by decide : (" error: " ++ "no rows affected" ++ "\")\n" : String)
        = " error: no rows affected\")\n")]
    simp only [noRowsBranch, sAppend_assoc]

/-- Claim C9: generation is a pure function of the input structure — equal
inputs give byte-identical rendered file content, so two runs on the same
structure produce the same bytes. -/
theorem c9_generate_deterministic (s t : Structure) (h : s = t) : Generate s = Generate t := by
  rw [h]

/-- Witness for claim C9 at a concrete structure. -/
theorem c9_generate_deterministic_witness : Generate noteStructure = Generate noteStructure :=
  c9_generate_deterministic noteStructure noteStructure rfl

/-- Claim C10: with no primary-tagged field, Select and Delete still
succeed, with empty WHERE condition (SQL ends in `WHERE ()`), empty WHERE
value strings, and input parameters reduced to the context parameter. -/
theorem c10_no_primary_fields (s : Structure) (h : ∀ f ∈ s.fields, isPrimary f = false) :
    selectWhereStr s = "" ∧ deleteWhereStr s = ""
    ∧ selectWhereValue s = "" ∧ deleteWhereValue s = ""
    ∧ selectIParams s = "ctx context.Context" ∧ deleteIParams s = "ctx context.Context"
    ∧ selectSql s = "\"SELECT (" ++ selectParamsStr s ++ ") FROM " ++ s.tableName ++ " WHERE ()\""
    ∧ deleteSql s = "\"DELETE FROM " ++ s.tableName ++ " WHERE ()\"" := by
  have hf : s.fields.filter isPrimary = [] := by
    rw [List.filter_eq_nil_iff]
    intro f hfmem
    simp [h f hfmem]
  have hws : selectWhereStr s = "" := by
    simp only [selectWhereStr, selectLoop_eq, hf]
    rfl
  have hdw : deleteWhereStr s = "" := by
    simp only [deleteWhereStr, deleteLoop_eq, hf]
    rfl
  have hwv : selectWhereValue s = "" := by
    simp only [selectWhereValue, selectLoop_eq, hf]
    rfl
  have hdv : deleteWhereValue s = "" := by
    simp only [deleteWhereValue, deleteLoop_eq, hf]
    rfl
  have hip : selectIParams s = "ctx context.Context" := by
    simp only [selectIParams, selectLoop_eq, hf, List.map_nil]
    rw [trim_ctx_list [] (by simp), if_pos rfl]
  have hdp : deleteIParams s = "ctx context.Context" := by
    simp only [deleteIParams, deleteLoop_eq, hf, List.map_nil]
    rw [trim_ctx_list [] (by simp), if_pos rfl]
  refine ⟨hws, hdw, hwv, hdv, hip, hdp, ?_, ?_⟩
  · rw [selectSql, hws]
    simp only [sAppend_assoc, sEmpty_append]
    rw [(by decide : (" WHERE (" ++ ")\"" : String) = " WHERE ()\"")]
  · rw [deleteSql, hdw]
    simp only [sAppend_assoc, sEmpty_append]
    rw [(by decide : (" WHERE (" ++ ")\"" : String) = " WHERE ()\"")]

/-- Witness for claim C10 at a concrete structure with no primary field. -/
theorem c10_no_primary_fields_witness : selectIParams noteStructure = "ctx context.Context" :=
  (c10_no_primary_fields noteStructure (by decide)).2.2.2.2.1

/-- Claim C1: for the `User` structure (fields `ID int64` tagged
`column:id, primary:true` and `Name string` tagged `column:name`), the
generator produces exactly the scenario's Create, Select, Update and
Delete SQL, and the Select input parameter `ID int64` after the context
parameter. -/
theorem c1_user_scenario :
    (getStructure "model" "User" userRaw).map
      (fun s => (createSql s, selectSql s, selectIParams s, updateSql s, deleteSql s))
      = some ("\"INSERT INTO testTable (id, name) VALUES ($1, $2)\"",
              "\"SELECT (id, name) FROM testTable WHERE (id = $1)\"",
              "ctx context.Context, ID int64",
              "\"UPDATE testTable SET (name = $2) WHERE (id = $1)\"",
              "\"DELETE FROM testTable WHERE (id = $1)\"") := by decide

/-- Claim C2: Update's SET clause (non-primary fields) and WHERE clause
(primary fields) draw their placeholder numbers from one counter advanced
once per field in declaration order, so together they use exactly the
numbers 1..n with no gaps and no repeats, and the exec value list holds
one `data.<Field>` entry per field in the same order. -/
theorem c2_update_placeholder_partition (s : Structure)
    (hname : ∀ f ∈ s.fields, lastSafe commaCut ("data." ++ f.Name) = true) :
    updateWhereStr s = joinSep " AND " (((s.fields.zip (List.range' 1 s.fields.length)).filter
        (fun p => isPrimary p.1)).map fun p => colOf p.1 ++ " = $" ++ natToStr p.2)
    ∧ updateSetStr s = joinSep ", " (((s.fields.zip (List.range' 1 s.fields.length)).filter
        (fun p => !isPrimary p.1)).map fun p => colOf p.1 ++ " = $" ++ natToStr p.2)
    ∧ updateValuesStr s = joinSep ", " (s.fields.map fun f => "data." ++ f.Name)
    ∧ (((s.fields.zip (List.range' 1 s.fields.length)).filter
          (fun p => isPrimary p.1)).map Prod.snd
        ++ ((s.fields.zip (List.range' 1 s.fields.length)).filter
          (fun p => !isPrimary p.1)).map Prod.snd).Perm
        (List.range' 1 s.fields.length) := by
  refine ⟨?_, ?_, ?_, ?_⟩
  · simp only [updateWhereStr, updateLoop_eq]
    refine trim_joinTrail _ _ _ (by decide) ?_
    intro x hx
    obtain ⟨p, hp, rfl⟩ := List.mem_map.1 hx
    exact lastSafe_append_natToStr _ andCut_digit _ _
  · simp only [updateSetStr, updateLoop_eq]
    refine trim_joinTrail _ _ _ (by decide) ?_
    intro x hx
    obtain ⟨p, hp, rfl⟩ := List.mem_map.1 hx
    exact lastSafe_append_natToStr _ commaCut_digit _ _
  · simp only [updateValuesStr, updateLoop_eq]
    refine trim_joinTrail _ _ _ (by decide) ?_
    intro x hx
    obtain ⟨f, hf, rfl⟩ := List.mem_map.1 hx
    exact hname f hf
  · rw [← List.map_append]
    have hz : (s.fields.zip (List.range' 1 s.fields.length)).map Prod.snd
        = List.range' 1 s.fields.length :=
      map_snd_zip_eq _ _ (by rw [List.length_range'])
    have hperm :=
      (List.filter_append_perm (fun p : Field × Nat => isPrimary p.1)
        (s.fields.zip (List.range' 1 s.fields.length))).map Prod.snd
    rw [hz] at hperm
    exact hperm

/-- Witness for claim C2 at the concrete `User` structure. -/
theorem c2_update_placeholder_partition_witness :
    updateWhereStr userStructure = joinSep " AND "
      (((userStructure.fields.zip (List.range' 1 userStructure.fields.length)).filter
        (fun p => isPrimary p.1)).map fun p => colOf p.1 ++ " = $" ++ natToStr p.2) :=
  (c2_update_placeholder_partition userStructure (by decide)).1

/-- Claim C3: with k primary-tagged fields, Select and Delete each build a
WHERE clause of exactly k AND-joined `<column> = $i` predicates numbered 1
through k in declaration order (independently of any other clause), and
the corresponding value and parameter lists hold exactly those k primary
fields in the same order. -/
theorem c3_select_delete_where (s : Structure)
    (hpn : ∀ f ∈ primaryFields s, lastSafe commaCut f.Name = true)
    (hpt : ∀ f ∈ primaryFields s, lastSafe commaCut (f.Name ++ " " ++ f.fieldType) = true) :
    selectWhereStr s = joinSep " AND " (((primaryFields s).zip
        (List.range' 1 (primaryFields s).length)).map
        fun p => colOf p.1 ++ " = $" ++ natToStr p.2)
    ∧ deleteWhereStr s = joinSep " AND " (((primaryFields s).zip
        (List.range' 1 (primaryFields s).length)).map
        fun p => colOf p.1 ++ " = $" ++ natToStr p.2)
    ∧ selectWhereValue s = joinSep ", " ((primaryFields s).map fun f => f.Name)
    ∧ deleteWhereValue s = joinSep ", " ((primaryFields s).map fun f => f.Name)
    ∧ (((primaryFields s).zip (List.range' 1 (primaryFields s).length)).map
        fun p => colOf p.1 ++ " = $" ++ natToStr p.2).length = (primaryFields s).length
    ∧ selectIParams s = (if primaryFields s = [] then "ctx context.Context"
        else "ctx context.Context, "
          ++ joinSep ", " ((primaryFields s).map fun f => f.Name ++ " " ++ f.fieldType))
    ∧ deleteIParams s = (if primaryFields s = [] then "ctx context.Context"
        else "ctx context.Context, "
          ++ joinSep ", " ((primaryFields s).map fun f => f.Name ++ " " ++ f.fieldType)) := by
  have hval : ∀ x ∈ (s.fields.filter isPrimary).map (fun f => f.Name),
      lastSafe commaCut x = true := by
    intro x hx
    obtain ⟨f, hf, rfl⟩ := List.mem_map.1 hx
    exact hpn f hf
  have hpar : ∀ x ∈ (s.fields.filter isPrimary).map (fun f => f.Name ++ " " ++ f.fieldType),
      lastSafe commaCut x = true := by
    intro x hx
    obtain ⟨f, hf, rfl⟩ := List.mem_map.1 hx
    exact hpt f hf
  have hwhere : ∀ x ∈ ((s.fields.filter isPrimary).zip
      (List.range' 1 (s.fields.filter isPrimary).length)).map
      (fun p => colOf p.1 ++ " = $" ++ natToStr p.2), lastSafe andCut x = true := by
    intro x hx
    obtain ⟨p, hp, rfl⟩ := List.mem_map.1 hx
    exact lastSafe_append_natToStr _ andCut_digit _ _
  refine ⟨?_, ?_, ?_, ?_, ?_, ?_, ?_⟩
  · simp only [selectWhereStr, selectLoop_eq, primaryFields]
    exact trim_joinTrail _ _ _ (by decide) hwhere
  · simp only [deleteWhereStr, deleteLoop_eq, primaryFields]
    exact trim_joinTrail _ _ _ (by decide) hwhere
  · simp only [selectWhereValue, selectLoop_eq, primaryFields]
    exact trim_joinTrail _ _ _ (by decide) hval
  · simp only [deleteWhereValue, deleteLoop_eq, primaryFields]
    exact trim_joinTrail _ _ _ (by decide) hval
  · simp [List.length_zip, List.length_range']
  · simp only [selectIParams, selectLoop_eq, primaryFields]
    rw [trim_ctx_list _ hpar]
    by_cases hl : s.fields.filter isPrimary = [] <;> simp [hl]
  · simp only [deleteIParams, deleteLoop_eq, primaryFields]
    rw [trim_ctx_list _ hpar]
    by_cases hl : s.fields.filter isPrimary = [] <;> simp [hl]

/-- Witness for claim C3 at the concrete `User` structure. -/
theorem c3_select_delete_where_witness :
    selectWhereValue userStructure
      = joinSep ", " ((primaryFields userStructure).map fun f => f.Name) :=
  (c3_select_delete_where userStructure (by decide) (by decide)).2.2.1

/-- Claim C4: the Create statement has one placeholder per field, `$1..$n`
in order, its column list is the fields' column tag values in declaration
order, and its value list is `data.<Field>` per field in order, each list
comma-joined with the trailing separator removed. -/
theorem c4_create_lists (s : Structure)
    (hcol : ∀ f ∈ s.fields, lastSafe commaCut (colOf f) = true)
    (hname : ∀ f ∈ s.fields, lastSafe commaCut ("data." ++ f.Name) = true) :
    createValuesStr s
      = joinSep ", " ((List.range' 1 s.fields.length).map fun k => "$" ++ natToStr k)
    ∧ createParamsStr s = joinSep ", " (s.fields.map colOf)
    ∧ createInsertStr s = joinSep ", " (s.fields.map fun f => "data." ++ f.Name)
    ∧ ((List.range' 1 s.fields.length).map fun k => "$" ++ natToStr k).length = s.fields.length
    ∧ createSql s = "\"INSERT INTO " ++ s.tableName ++ " ("
        ++ joinSep ", " (s.fields.map colOf) ++ ") VALUES ("
        ++ joinSep ", " ((List.range' 1 s.fields.length).map fun k => "$" ++ natToStr k)
        ++ ")\"" := by
  have hv : createValuesStr s
      = joinSep ", " ((List.range' 1 s.fields.length).map fun k => "$" ++ natToStr k) := by
    simp only [createValuesStr, createLoop_eq]
    refine trim_joinTrail _ _ _ (by decide) ?_
    intro x hx
    obtain ⟨k, hk, rfl⟩ := List.mem_map.1 hx
    exact lastSafe_append_natToStr _ commaCut_digit _ _
  have hp : createParamsStr s = joinSep ", " (s.fields.map colOf) := by
    simp only [createParamsStr, createLoop_eq]
    refine trim_joinTrail _ _ _ (by decide) ?_
    intro x hx
    obtain ⟨f, hf, rfl⟩ := List.mem_map.1 hx
    exact hcol f hf
  have hi : createInsertStr s = joinSep ", " (s.fields.map fun f => "data." ++ f.Name) := by
    simp only [createInsertStr, createLoop_eq]
    refine trim_joinTrail _ _ _ (by decide) ?_
    intro x hx
    obtain ⟨f, hf, rfl⟩ := List.mem_map.1 hx
    exact hname f hf
  refine ⟨hv, hp, hi, by simp [List.length_range'], ?_⟩
  rw [createSql, hv, hp]

/-- Witness for claim C4 at the concrete `User` structure. -/
theorem c4_create_lists_witness :
    createValuesStr userStructure
      = joinSep ", " ((List.range' 1 userStructure.fields.length).map fun k => "$" ++ natToStr k) :=
  (c4_create_lists userStructure (by decide) (by decide)).1

/-- Claim C5: the two-pair tag string (`column` to `id`, `primary` to
`true`) normalizes to exactly those two entries, and the field carrying it
appears in Select's and Delete's WHERE clause and value/parameter lists and
in Update's WHERE clause, but not in Update's SET clause. -/
theorem c5_tag_roundtrip :
    parseTags (some userTagId) = some [("column", "id"), ("primary", "true")]
    ∧ getStructure "model" "User" userRaw = some userStructure
    ∧ selectWhereStr userStructure = "id = $1"
    ∧ deleteWhereStr userStructure = "id = $1"
    ∧ selectWhereValue userStructure = "ID"
    ∧ deleteWhereValue userStructure = "ID"
    ∧ selectIParams userStructure = "ctx context.Context, ID int64"
    ∧ updateSetStr userStructure = "name = $2"
    ∧ updateWhereStr userStructure = "id = $1" := by decide

end RepoGen
